import Mathlib

/-!
Shallow embedding of `relay_control.ino` (Victron MultiPlus remote relay
controller) and verification of its specification claims.

The embedding models the sketch's global state (the two logical link
booleans, the last level written to each relay pin, the chronological
trace of digital writes, and the accumulated serial output) as an
explicit `Sys` record threaded through each translated function.
`Serial.println` is modelled as appending its text plus one line
terminator to the output stream.
-/

namespace RelayControl

/-- Physical output level of a digital pin (Arduino LOW / HIGH). -/
inductive Level where
  | low
  | high
deriving DecidableEq

def RELAY_ON_PIN : Nat := 2

def RELAY_CH_PIN : Nat := 3

/-- Build-time wiring-polarity flag, `const bool RELAY_ACTIVE_LOW = true;`. -/
def RELAY_ACTIVE_LOW : Bool := true

/-- Process-wide state of the sketch: the two logical link states
(globals `inverterEnabled` / `chargerEnabled`), the last level written to
each relay pin, the chronological trace of `digitalWrite` calls, and the
text emitted on the serial port. -/
structure Sys where
  inverterEnabled : Bool
  chargerEnabled : Bool
  pinOn : Level
  pinCh : Level
  writes : List (Nat × Level)
  out : String
deriving DecidableEq

/-- `Serial.print(t)`: append `t` to the output stream. -/
def serialPrint (t : String) (s : Sys) : Sys :=
  { s with out := s.out ++ t }

/-- `Serial.println(t)`: append `t` and one line terminator. -/
def serialPrintln (t : String) (s : Sys) : Sys :=
  { s with out := s.out ++ t ++ "\n" }

/-- `digitalWrite(pin, level)`: record the write in the trace and update
the remembered level of the targeted relay pin. -/
def digitalWrite (pin : Nat) (level : Level) (s : Sys) : Sys :=
  let s1 := { s with writes := s.writes ++ [(pin, level)] }
  if pin = RELAY_ON_PIN then { s1 with pinOn := level }
  else if pin = RELAY_CH_PIN then { s1 with pinCh := level }
  else s1

/-- Body of `applyRelay`, with the build-time constant `RELAY_ACTIVE_LOW`
made an explicit parameter so both polarities can be reasoned about. -/
def applyRelayWith (activeLow : Bool) (pin : Nat) (enabled : Bool) (s : Sys) : Sys :=
  let energize := !enabled
  let level : Level :=
    if activeLow then (if energize then Level.low else Level.high)
    else (if energize then Level.high else Level.low)
  digitalWrite pin level s

/-- `applyRelay(pin, enabled)` as compiled: the polarity fixed to
`RELAY_ACTIVE_LOW`. -/
def applyRelay (pin : Nat) (enabled : Bool) (s : Sys) : Sys :=
  applyRelayWith RELAY_ACTIVE_LOW pin enabled s

/-- `publishState()`: print `STATE ON=<0|1> CH=<0|1>` as one line. -/
def publishState (s : Sys) : Sys :=
  let s1 := serialPrint "STATE ON=" s
  let s2 := serialPrint (if s1.inverterEnabled then "1" else "0") s1
  let s3 := serialPrint " CH=" s2
  serialPrintln (if s3.chargerEnabled then "1" else "0") s3

/-- `setInverter(enabled)`: update the ON link state and re-apply it. -/
def setInverter (enabled : Bool) (s : Sys) : Sys :=
  let s1 := { s with inverterEnabled := enabled }
  applyRelay RELAY_ON_PIN s1.inverterEnabled s1

/-- `setCharger(enabled)`: update the CH link state and re-apply it. -/
def setCharger (enabled : Bool) (s : Sys) : Sys :=
  let s1 := { s with chargerEnabled := enabled }
  applyRelay RELAY_CH_PIN s1.chargerEnabled s1

/-- C `isspace` on the characters Arduino `String::trim` removes. -/
def isSpaceChar (c : Char) : Bool :=
  c == ' ' || c == '\t' || c == '\n' || c == '\x0b' || c == '\x0c' || c == '\r'

def dropLeading (cs : List Char) : List Char :=
  cs.dropWhile isSpaceChar

def trimRight (cs : List Char) : List Char :=
  (cs.reverse.dropWhile isSpaceChar).reverse

/-- Remove leading and trailing whitespace, as Arduino `String::trim`. -/
def trimChars (cs : List Char) : List Char :=
  trimRight (dropLeading cs)

def strTrim (s : String) : String :=
  String.mk (trimChars s.data)

/-- Arduino `String::toLowerCase` (per-character ASCII lowercasing). -/
def lowerStr (s : String) : String :=
  String.mk (s.data.map Char.toLower)

/-- `trimLower(s)`: trim a copy, then lowercase it. -/
def trimLower (s : String) : String :=
  lowerStr (strTrim s)

/-- Arduino `String::indexOf(' ')`: position of the first space, if any. -/
def indexOfSpace : List Char → Option Nat
  | [] => none
  | c :: cs => if c = ' ' then some 0 else (indexOfSpace cs).map (· + 1)

/-- The token split in `loop()`: `cmd = line`, and when a space occurs at
index `sp`, `cmd = line.substring(0, sp)` and `arg = line.substring(sp+1)`. -/
def splitCmdArg (line : String) : String × String :=
  match indexOfSpace line.data with
  | none => (line, "")
  | some sp => (String.mk (line.data.take sp), String.mk (line.data.drop (sp + 1)))

/-- `parseBool(val, out)`: `none` models returning `false` without
setting `out`; `some b` models returning `true` with `out = b`. -/
def parseBool (val : String) : Option Bool :=
  let v := trimLower val
  if v == "1" || v == "on" || v == "true" || v == "enable" || v == "enabled" then
    some true
  else if v == "0" || v == "off" || v == "false" || v == "disable" || v == "disabled" then
    some false
  else none

/-- `setup()`: raw fail-safe pin writes, then logical initialization
through the relay driver, then the startup banner. -/
def setup (s : Sys) : Sys :=
  let s1 :=
    if RELAY_ACTIVE_LOW then
      digitalWrite RELAY_CH_PIN Level.high (digitalWrite RELAY_ON_PIN Level.high s)
    else
      digitalWrite RELAY_CH_PIN Level.low (digitalWrite RELAY_ON_PIN Level.low s)
  let s2 := setInverter true s1
  let s3 := setCharger true s2
  let s4 := serialPrintln "Victron Remote Relay Ready" s3
  let s5 := publishState s4
  serialPrintln "Type HELP for commands" s5

/-- Globals as initialized at load time; the pin levels before `setup`
runs are unconstrained, so they are parameters. -/
def initialGlobals (pOn pCh : Level) : Sys :=
  { inverterEnabled := true, chargerEnabled := true, pinOn := pOn, pinCh := pCh,
    writes := [], out := "" }

/-- State of the process right after `setup()` has run. -/
def boot (pOn pCh : Level) : Sys :=
  setup (initialGlobals pOn pCh)

/-- The command dispatch chain of `loop()`, applied to the lowercased
command token and the trimmed argument. -/
def dispatchCmd (cmd arg : String) (s : Sys) : Sys :=
  if cmd == "help" then
    let s1 := serialPrintln "Commands:" s
    let s2 := serialPrintln "  ON 1 | ON 0" s1
    let s3 := serialPrintln "  CH 1 | CH 0" s2
    let s4 := serialPrintln "  ALL 1 | ALL 0" s3
    let s5 := serialPrintln "  STATE?" s4
    serialPrintln "  HELP" s5
  else if cmd == "state?" then
    publishState s
  else if cmd == "on" then
    match parseBool arg with
    | none => serialPrintln "ERR bad ON value" s
    | some v => publishState (serialPrintln "OK" (setInverter v s))
  else if cmd == "ch" then
    match parseBool arg with
    | none => serialPrintln "ERR bad CH value" s
    | some v => publishState (serialPrintln "OK" (setCharger v s))
  else if cmd == "all" then
    match parseBool arg with
    | none => serialPrintln "ERR bad ALL value" s
    | some v => publishState (serialPrintln "OK" (setCharger v (setInverter v s)))
  else
    serialPrintln "ERR unknown command (type HELP)" s

/-- One iteration of `loop()` on a received line: trim it, drop it if
empty, split into command and argument, lowercase the command, trim the
argument, and dispatch. -/
def processLine (raw : String) (s : Sys) : Sys :=
  let line := strTrim raw
  if line.length = 0 then s
  else
    let p := splitCmdArg line
    let cmd := lowerStr p.1
    let arg := strTrim p.2
    dispatchCmd cmd arg s

/-- Level that leaves a relay de-energized: the opposite of the level
`applyRelay` drives when `energize` holds (HIGH under active-low). -/
def deEnergizedLevel : Level :=
  if RELAY_ACTIVE_LOW then Level.high else Level.low

/-- Logical/physical coupling invariant: a link's pin holds the
de-energized level exactly when its logical state is enabled. -/
def Inv (s : Sys) : Prop :=
  (s.pinOn = deEnergizedLevel ↔ s.inverterEnabled = true) ∧
  (s.pinCh = deEnergizedLevel ↔ s.chargerEnabled = true)

instance (s : Sys) : Decidable (Inv s) := by
  unfold Inv
  infer_instance

/-- The boolean tokens `parseBool` accepts as true. -/
def trueTokens : List String := ["1", "on", "true", "enable", "enabled"]

/-- The boolean tokens `parseBool` accepts as false. -/
def falseTokens : List String := ["0", "off", "false", "disable", "disabled"]

/-- The digit printed for a link state in the snapshot line. -/
def digitStr (b : Bool) : String :=
  if b then "1" else "0"

/-- The snapshot line as specified: `STATE ON=<0|1> CH=<0|1>` with one
terminating line break. -/
def snapshotLine (s : Sys) : String :=
  "STATE ON=" ++ digitStr s.inverterEnabled ++ " CH=" ++ digitStr s.chargerEnabled ++ "\n"

/-- The HELP usage text, six lines. -/
def helpText : String :=
  "Commands:\n  ON 1 | ON 0\n  CH 1 | CH 0\n  ALL 1 | ALL 0\n  STATE?\n  HELP\n"

/-! ## Helper lemmas -/

theorem dropWhile_all_false {p : Char → Bool} :
    ∀ {l : List Char}, (∀ c ∈ l, p c = false) → l.dropWhile p = l
  | [], _ => rfl
  | c :: cs, h => by
    have hc : p c = false := h c (List.mem_cons_self c cs)
    simp [List.dropWhile_cons, hc]

theorem trimChars_of_spaceFree {cs : List Char}
    (h : ∀ c ∈ cs, isSpaceChar c = false) : trimChars cs = cs := by
  unfold trimChars dropLeading trimRight
  rw [dropWhile_all_false h]
  rw [dropWhile_all_false (fun c hc => h c (List.mem_reverse.mp hc))]
  exact List.reverse_reverse cs

theorem strTrim_of_spaceFree {t : String}
    (h : ∀ c ∈ t.data, isSpaceChar c = false) : strTrim t = t := by
  cases t with
  | mk d => simp only [strTrim] at *; rw [trimChars_of_spaceFree h]

theorem trim_shape (a b : List Char) (ha : a ≠ [])
    (ha2 : ∀ c ∈ a, isSpaceChar c = false) (hb : b ≠ [])
    (hb2 : ∀ c ∈ b, isSpaceChar c = false) :
    trimChars (a ++ ' ' :: b) = a ++ ' ' :: b := by
  obtain ⟨c, a', rfl⟩ := List.exists_cons_of_ne_nil ha
  have hrevb : b.reverse ≠ [] := by
    simpa using hb
  obtain ⟨d, t, hdt⟩ := List.exists_cons_of_ne_nil hrevb
  have hd : isSpaceChar d = false := by
    have : d ∈ b.reverse := by rw [hdt]; exact List.mem_cons_self d t
    exact hb2 d (List.mem_reverse.mp this)
  have hc : isSpaceChar c = false := ha2 c (List.mem_cons_self c a')
  unfold trimChars dropLeading trimRight
  rw [List.cons_append]
  have h1 : List.dropWhile isSpaceChar (c :: (a' ++ ' ' :: b)) = c :: (a' ++ ' ' :: b) := by
    rw [List.dropWhile_cons, hc]
    simp
  rw [h1]
  have hrev : (c :: (a' ++ ' ' :: b)).reverse = d :: (t ++ ' ' :: (a'.reverse ++ [c])) := by
    simp [List.reverse_append, hdt]
  have h2 : List.dropWhile isSpaceChar (c :: (a' ++ ' ' :: b)).reverse =
      (c :: (a' ++ ' ' :: b)).reverse := by
    rw [hrev, List.dropWhile_cons, hd]
    simp
  rw [h2, List.reverse_reverse]

theorem indexOfSpace_shape (a b : List Char) (ha : ∀ c ∈ a, c ≠ ' ') :
    indexOfSpace (a ++ ' ' :: b) = some a.length := by
  induction a with
  | nil => simp [indexOfSpace]
  | cons c a' ih =>
    have hc : c ≠ ' ' := ha c (List.mem_cons_self c a')
    rw [List.cons_append]
    show (if c = ' ' then some 0 else (indexOfSpace (a' ++ ' ' :: b)).map (· + 1)) =
      some (c :: a').length
    rw [if_neg hc, ih (fun x hx => ha x (List.mem_cons_of_mem c hx))]
    rfl

theorem splitCmdArg_shape (line : String) (a b : List Char)
    (hdata : line.data = a ++ ' ' :: b) (ha : ∀ c ∈ a, c ≠ ' ') :
    splitCmdArg line = (String.mk a, String.mk b) := by
  unfold splitCmdArg
  rw [hdata, indexOfSpace_shape a b ha]
  have htake : (a ++ ' ' :: b).take a.length = a := List.take_left a (' ' :: b)
  have hdrop : (a ++ ' ' :: b).drop (a.length + 1) = b := by
    have h2 : a ++ ' ' :: b = (a ++ [' ']) ++ b := by simp
    have h3 : a.length + 1 = (a ++ [' ']).length := by simp
    rw [h2, h3]
    exact List.drop_left (a ++ [' ']) b
  simp [htake, hdrop]

theorem string_eq_empty_of_length {t : String} (h : t.length = 0) : t = "" := by
  cases t with
  | mk d =>
    cases d with
    | nil => rfl
    | cons c cs => simp [String.length] at h

theorem processLine_of_trim_empty {raw : String} (s : Sys) (h : strTrim raw = "") :
    processLine raw s = s := by
  simp [processLine, h]

theorem processLine_eq (raw : String) (s : Sys) (h : strTrim raw ≠ "") :
    processLine raw s =
      dispatchCmd (lowerStr (splitCmdArg (strTrim raw)).1)
        (strTrim (splitCmdArg (strTrim raw)).2) s := by
  unfold processLine
  have hlen : ¬ (strTrim raw).length = 0 := fun h0 => h (string_eq_empty_of_length h0)
  simp [hlen]

theorem dispatch_help (arg : String) (s : Sys) :
    dispatchCmd "help" arg s =
      serialPrintln "  HELP" (serialPrintln "  STATE?" (serialPrintln "  ALL 1 | ALL 0"
        (serialPrintln "  CH 1 | CH 0" (serialPrintln "  ON 1 | ON 0"
          (serialPrintln "Commands:" s))))) := rfl

theorem dispatch_state (arg : String) (s : Sys) :
    dispatchCmd "state?" arg s = publishState s := rfl

theorem dispatch_on (arg : String) (s : Sys) :
    dispatchCmd "on" arg s =
      (match parseBool arg with
        | none => serialPrintln "ERR bad ON value" s
        | some v => publishState (serialPrintln "OK" (setInverter v s))) := rfl

theorem dispatch_ch (arg : String) (s : Sys) :
    dispatchCmd "ch" arg s =
      (match parseBool arg with
        | none => serialPrintln "ERR bad CH value" s
        | some v => publishState (serialPrintln "OK" (setCharger v s))) := rfl

theorem dispatch_all (arg : String) (s : Sys) :
    dispatchCmd "all" arg s =
      (match parseBool arg with
        | none => serialPrintln "ERR bad ALL value" s
        | some v => publishState (serialPrintln "OK" (setCharger v (setInverter v s)))) := rfl

theorem dispatch_unknown (cmd arg : String) (s : Sys)
    (h1 : cmd ≠ "help") (h2 : cmd ≠ "state?") (h3 : cmd ≠ "on")
    (h4 : cmd ≠ "ch") (h5 : cmd ≠ "all") :
    dispatchCmd cmd arg s = serialPrintln "ERR unknown command (type HELP)" s := by
  simp [dispatchCmd, h1, h2, h3, h4, h5]

theorem mk_data (t : String) : String.mk t.data = t := by
  cases t; rfl

theorem data_ne_nil_of_ne_empty {t : String} (h : t ≠ "") : t.data ≠ [] := by
  intro h0
  apply h
  rw [← mk_data t, h0]

theorem processLine_cmd_tok (line cmdRaw tok : String) (s : Sys)
    (hdata : line.data = cmdRaw.data ++ ' ' :: tok.data)
    (hc1 : cmdRaw.data ≠ []) (hc2 : ∀ c ∈ cmdRaw.data, isSpaceChar c = false)
    (ht1 : tok.data ≠ []) (ht2 : ∀ c ∈ tok.data, isSpaceChar c = false) :
    processLine line s = dispatchCmd (lowerStr cmdRaw) tok s := by
  have htrim : strTrim line = line := by
    cases line with
    | mk d =>
      simp only [strTrim] at *
      rw [hdata, trim_shape _ _ hc1 hc2 ht1 ht2, ← hdata]
  have hne : strTrim line ≠ "" := by
    rw [htrim]
    intro h0
    apply hc1
    have : line.data = ([] : List Char) := by rw [h0]
    rw [this] at hdata
    exact (List.append_eq_nil.mp hdata.symm).1
  rw [processLine_eq line s hne, htrim]
  have hsplit : splitCmdArg line = (cmdRaw, tok) := by
    have := splitCmdArg_shape line cmdRaw.data tok.data hdata
      (fun c hc => by
        intro he
        have := hc2 c hc
        rw [he] at this
        simp [isSpaceChar] at this)
    rw [mk_data, mk_data] at this
    exact this
  rw [hsplit]
  rw [strTrim_of_spaceFree ht2]

theorem trueCond_iff (v : String) :
    (v == "1" || v == "on" || v == "true" || v == "enable" || v == "enabled") = true ↔
      v ∈ trueTokens := by
  simp only [Bool.or_eq_true, beq_iff_eq, trueTokens, List.mem_cons, List.not_mem_nil,
    or_false]
  tauto

theorem falseCond_iff (v : String) :
    (v == "0" || v == "off" || v == "false" || v == "disable" || v == "disabled") = true ↔
      v ∈ falseTokens := by
  simp only [Bool.or_eq_true, beq_iff_eq, falseTokens, List.mem_cons, List.not_mem_nil,
    or_false]
  tauto

theorem parseBool_table (s : String) :
    parseBool s =
      (if trimLower s ∈ trueTokens then some true
        else if trimLower s ∈ falseTokens then some false else none) := by
  by_cases hT : trimLower s ∈ trueTokens
  · simp [parseBool, (trueCond_iff (trimLower s)).mpr hT, hT]
  · have h1 : (trimLower s == "1" || trimLower s == "on" || trimLower s == "true" ||
        trimLower s == "enable" || trimLower s == "enabled") = false := by
      rcases Bool.eq_false_or_eq_true (trimLower s == "1" || trimLower s == "on" ||
        trimLower s == "true" || trimLower s == "enable" || trimLower s == "enabled")
        with h | h
      · exact absurd ((trueCond_iff (trimLower s)).mp h) hT
      · exact h
    by_cases hF : trimLower s ∈ falseTokens
    · simp [parseBool, h1, (falseCond_iff (trimLower s)).mpr hF, hT, hF]
    · have h2 : (trimLower s == "0" || trimLower s == "off" || trimLower s == "false" ||
          trimLower s == "disable" || trimLower s == "disabled") = false := by
        rcases Bool.eq_false_or_eq_true (trimLower s == "0" || trimLower s == "off" ||
          trimLower s == "false" || trimLower s == "disable" || trimLower s == "disabled")
          with h | h
        · exact absurd ((falseCond_iff (trimLower s)).mp h) hF
        · exact h
      simp [parseBool, h1, h2, hT, hF]

theorem tokens_disjoint (v : String) (hT : v ∈ trueTokens) (hF : v ∈ falseTokens) :
    False := by
  simp only [trueTokens, List.mem_cons, List.not_mem_nil, or_false] at hT
  rcases hT with h | h | h | h | h <;> subst h <;>
    exact absurd hF (by decide)

/-! ## Claim theorems -/

/-- C1: for every polarity flag, pin and desired enabled state,
`applyRelay` performs exactly one digital write, to that pin, whose level
is HIGH for enabled and LOW for disabled under active-low wiring, and the
inverted mapping under active-high wiring; no serial output is produced. -/
theorem claim_C1 (activeLow : Bool) (pin : Nat) (enabled : Bool) (s : Sys) :
    (applyRelayWith activeLow pin enabled s).writes =
      s.writes ++ [(pin,
        if activeLow then (if enabled then Level.high else Level.low)
        else (if enabled then Level.low else Level.high))] ∧
    (applyRelayWith activeLow pin enabled s).out = s.out ∧
    applyRelay pin enabled s = applyRelayWith RELAY_ACTIVE_LOW pin enabled s := by
  refine ⟨?_, ?_, rfl⟩ <;>
    cases activeLow <;> cases enabled <;>
      simp [applyRelayWith, digitalWrite] <;>
      split_ifs <;> rfl

/-- C2: at process start both pins are first driven (raw writes) to the
de-energized level for the configured polarity (HIGH, since the build is
active-low), and only then are both links set `enabled=true` and applied
through the relay driver, as the chronological write trace shows; a
`STATE?` issued on the post-setup state reports `ON=1 CH=1`. -/
theorem claim_C2 (pOn pCh : Level) :
    deEnergizedLevel = Level.high ∧
    (boot pOn pCh).writes =
      [(RELAY_ON_PIN, deEnergizedLevel), (RELAY_CH_PIN, deEnergizedLevel),
        (RELAY_ON_PIN, deEnergizedLevel), (RELAY_CH_PIN, deEnergizedLevel)] ∧
    (boot pOn pCh).pinOn = deEnergizedLevel ∧
    (boot pOn pCh).pinCh = deEnergizedLevel ∧
    (boot pOn pCh).inverterEnabled = true ∧
    (boot pOn pCh).chargerEnabled = true ∧
    (processLine "STATE?" (boot pOn pCh)).out =
      (boot pOn pCh).out ++ "STATE ON=1 CH=1\n" := by
  exact ⟨rfl, rfl, rfl, rfl, rfl, rfl, rfl⟩

/-- C3: `parseBool` succeeds with `true` exactly when the trimmed,
lowercased input is one of the five true tokens, succeeds with `false`
exactly when it is one of the five false tokens, and fails on every
other string. -/
theorem claim_C3 (s : String) :
    (parseBool s = some true ↔ trimLower s ∈ trueTokens) ∧
    (parseBool s = some false ↔ trimLower s ∈ falseTokens) ∧
    (parseBool s = none ↔ (trimLower s ∉ trueTokens ∧ trimLower s ∉ falseTokens)) := by
  rw [parseBool_table]
  by_cases hT : trimLower s ∈ trueTokens <;> by_cases hF : trimLower s ∈ falseTokens
  · exact absurd hF (fun hF => tokens_disjoint (trimLower s) hT hF)
  · simp [hT, hF]
  · simp [hT, hF]
  · simp [hT, hF]

theorem Inv_println (t : String) (s : Sys) : Inv (serialPrintln t s) ↔ Inv s :=
  Iff.rfl

theorem Inv_publish (s : Sys) : Inv (publishState s) ↔ Inv s :=
  Iff.rfl

theorem Inv_setInverter (v : Bool) (s : Sys) (h : Inv s) : Inv (setInverter v s) := by
  cases v <;>
    exact ⟨by simp [setInverter, applyRelay, applyRelayWith, digitalWrite,
      deEnergizedLevel, RELAY_ACTIVE_LOW, RELAY_ON_PIN, RELAY_CH_PIN],
      by simpa [setInverter, applyRelay, applyRelayWith, digitalWrite,
        deEnergizedLevel, RELAY_ACTIVE_LOW, RELAY_ON_PIN, RELAY_CH_PIN] using h.2⟩

theorem Inv_setCharger (v : Bool) (s : Sys) (h : Inv s) : Inv (setCharger v s) := by
  cases v <;>
    exact ⟨by simpa [setCharger, applyRelay, applyRelayWith, digitalWrite,
      deEnergizedLevel, RELAY_ACTIVE_LOW, RELAY_ON_PIN, RELAY_CH_PIN] using h.1,
      by simp [setCharger, applyRelay, applyRelayWith, digitalWrite,
        deEnergizedLevel, RELAY_ACTIVE_LOW, RELAY_ON_PIN, RELAY_CH_PIN]⟩

theorem Inv_dispatch (cmd arg : String) (s : Sys) (h : Inv s) :
    Inv (dispatchCmd cmd arg s) := by
  unfold dispatchCmd
  split_ifs
  · exact (Inv_println _ _).mpr ((Inv_println _ _).mpr ((Inv_println _ _).mpr
      ((Inv_println _ _).mpr ((Inv_println _ _).mpr ((Inv_println _ _).mpr h)))))
  · exact (Inv_publish _).mpr h
  · cases hpb : parseBool arg with
    | none => exact (Inv_println _ _).mpr h
    | some v => exact (Inv_publish _).mpr ((Inv_println _ _).mpr (Inv_setInverter v s h))
  · cases hpb : parseBool arg with
    | none => exact (Inv_println _ _).mpr h
    | some v => exact (Inv_publish _).mpr ((Inv_println _ _).mpr (Inv_setCharger v s h))
  · cases hpb : parseBool arg with
    | none => exact (Inv_println _ _).mpr h
    | some v =>
      exact (Inv_publish _).mpr ((Inv_println _ _).mpr
        (Inv_setCharger v _ (Inv_setInverter v s h)))
  · exact (Inv_println _ _).mpr h

/-- C4: the logical/physical coupling invariant — a link's pin holds the
de-energized level exactly when its logical state is enabled — holds
right after initialization and is preserved by processing any input
line, since every state mutation re-applies the relay mapping. -/
theorem claim_C4 :
    (∀ pOn pCh : Level, Inv (boot pOn pCh)) ∧
    (∀ (s : Sys) (line : String), Inv s → Inv (processLine line s)) := by
  constructor
  · intro pOn pCh
    cases pOn <;> cases pCh <;> decide
  · intro s line h
    by_cases he : strTrim line = ""
    · rw [processLine_of_trim_empty s he]
      exact h
    · rw [processLine_eq line s he]
      exact Inv_dispatch _ _ s h

/-- C4 witness: the invariant holds concretely at boot and after a
mutating line. -/
theorem claim_C4_witness :
    Inv (boot Level.high Level.low) ∧
    Inv (processLine "ALL 0" (boot Level.high Level.low)) :=
  ⟨claim_C4.1 Level.high Level.low,
    claim_C4.2 (boot Level.high Level.low) "ALL 0" (by decide)⟩

theorem publishState_eq (s : Sys) :
    publishState s = { s with out := s.out ++ snapshotLine s } := by
  cases s with
  | mk i c p q w o =>
    cases i <;> cases c <;>
      simp [publishState, serialPrint, serialPrintln, snapshotLine, digitStr,
        String.append_assoc]

theorem processLine_state (s : Sys) : processLine "STATE?" s = publishState s := rfl

/-- C7: the snapshot line emitted by `publishState` — used by `STATE?`
and after every successful mutating command — is exactly
`STATE ON=<0|1> CH=<0|1>` with digit 1 for an enabled link and 0
otherwise, terminated by a single line break; `STATE?` changes nothing
but the output stream. -/
theorem claim_C7 (s : Sys) :
    publishState s = { s with out := s.out ++ snapshotLine s } ∧
    processLine "STATE?" s = { s with out := s.out ++ snapshotLine s } ∧
    snapshotLine s =
      "STATE ON=" ++ (if s.inverterEnabled then "1" else "0") ++ " CH=" ++
        (if s.chargerEnabled then "1" else "0") ++ "\n" :=
  ⟨publishState_eq s, (processLine_state s).trans (publishState_eq s), by
    cases hb : s.inverterEnabled <;> cases hc : s.chargerEnabled <;>
      simp [snapshotLine, digitStr, hb, hc]⟩

/-- C8: a line whose first token lowercases to `on`, `ch` or `all` but
whose argument fails boolean parsing is answered with exactly
`ERR bad ON value` / `ERR bad CH value` / `ERR bad ALL value`, and the
link states, pin levels and write trace are all left unchanged. -/
theorem claim_C8 (s : Sys) (raw : String)
    (harg : parseBool (strTrim (splitCmdArg (strTrim raw)).2) = none) :
    (lowerStr (splitCmdArg (strTrim raw)).1 = "on" →
      processLine raw s = { s with out := s.out ++ "ERR bad ON value\n" }) ∧
    (lowerStr (splitCmdArg (strTrim raw)).1 = "ch" →
      processLine raw s = { s with out := s.out ++ "ERR bad CH value\n" }) ∧
    (lowerStr (splitCmdArg (strTrim raw)).1 = "all" →
      processLine raw s = { s with out := s.out ++ "ERR bad ALL value\n" }) := by
  refine ⟨fun h => ?_, fun h => ?_, fun h => ?_⟩
  · have hne : strTrim raw ≠ "" := by
      intro h0
      rw [h0] at h
      exact absurd h (by decide)
    rw [processLine_eq raw s hne, h, dispatch_on, harg]
    simp [serialPrintln, String.append_assoc]
  · have hne : strTrim raw ≠ "" := by
      intro h0
      rw [h0] at h
      exact absurd h (by decide)
    rw [processLine_eq raw s hne, h, dispatch_ch, harg]
    simp [serialPrintln, String.append_assoc]
  · have hne : strTrim raw ≠ "" := by
      intro h0
      rw [h0] at h
      exact absurd h (by decide)
    rw [processLine_eq raw s hne, h, dispatch_all, harg]
    simp [serialPrintln, String.append_assoc]

/-- C8 witness: `ON banana` is rejected with `ERR bad ON value` and the
state survives unchanged. -/
theorem claim_C8_witness :
    processLine "ON banana" (boot Level.high Level.low) =
      { boot Level.high Level.low with
        out := (boot Level.high Level.low).out ++ "ERR bad ON value\n" } :=
  (claim_C8 (boot Level.high Level.low) "ON banana" (by decide)).1 (by decide)

/-- C9: a non-empty trimmed line whose first token lowercases to none of
`help`, `state?`, `on`, `ch`, `all` is answered with exactly
`ERR unknown command (type HELP)` and changes nothing but the output. -/
theorem claim_C9 (s : Sys) (raw : String) (hne : strTrim raw ≠ "")
    (hcmd : lowerStr (splitCmdArg (strTrim raw)).1 ∉
      (["help", "state?", "on", "ch", "all"] : List String)) :
    processLine raw s =
      { s with out := s.out ++ "ERR unknown command (type HELP)\n" } := by
  rw [processLine_eq raw s hne]
  simp only [List.mem_cons, List.not_mem_nil, or_false, not_or] at hcmd
  obtain ⟨h1, h2, h3, h4, h5⟩ := hcmd
  rw [dispatch_unknown _ _ s h1 h2 h3 h4 h5]
  simp [serialPrintln, String.append_assoc]

/-- C9 witness: the unknown command `FOO` gets the unknown-command error
and leaves the state unchanged. -/
theorem claim_C9_witness :
    processLine "FOO" (boot Level.high Level.low) =
      { boot Level.high Level.low with
        out := (boot Level.high Level.low).out ++ "ERR unknown command (type HELP)\n" } :=
  claim_C9 (boot Level.high Level.low) "FOO" (by decide) (by decide)

/-- C10: a line whose first space-separated token lowercases to `help`
or `state?` behaves as the bare command regardless of any trailing text:
it emits the usage text, respectively the snapshot line, produces no
error, and leaves link states and pins unchanged. -/
theorem claim_C10 (s : Sys) (raw : String) :
    (lowerStr (splitCmdArg (strTrim raw)).1 = "help" →
      processLine raw s = { s with out := s.out ++ helpText }) ∧
    (lowerStr (splitCmdArg (strTrim raw)).1 = "state?" →
      processLine raw s = { s with out := s.out ++ snapshotLine s }) := by
  constructor
  · intro h
    have hne : strTrim raw ≠ "" := by
      intro h0
      rw [h0] at h
      exact absurd h (by decide)
    rw [processLine_eq raw s hne, h, dispatch_help]
    simp [serialPrintln, helpText, String.append_assoc]
  · intro h
    have hne : strTrim raw ≠ "" := by
      intro h0
      rw [h0] at h
      exact absurd h (by decide)
    rw [processLine_eq raw s hne, h, dispatch_state]
    exact publishState_eq s

/-- C10 witness: `HELP me` emits the usage text and `STATE? now` emits
the snapshot, both with no state change. -/
theorem claim_C10_witness :
    processLine "HELP me" (boot Level.high Level.low) =
      { boot Level.high Level.low with
        out := (boot Level.high Level.low).out ++ helpText } ∧
    processLine "STATE? now" (boot Level.high Level.low) =
      { boot Level.high Level.low with
        out := (boot Level.high Level.low).out ++
          snapshotLine (boot Level.high Level.low) } :=
  ⟨(claim_C10 (boot Level.high Level.low) "HELP me").1 (by decide),
    (claim_C10 (boot Level.high Level.low) "STATE? now").2 (by decide)⟩

theorem parseBool_empty : parseBool "" = none := by decide

theorem tok_data_ne_nil {tok : String} {b : Bool} (hpb : parseBool tok = some b) :
    tok.data ≠ [] := by
  intro h0
  have he : tok = "" := by rw [← mk_data tok, h0]
  rw [he, parseBool_empty] at hpb
  exact Option.noConfusion hpb

/-- C5: processing `ON v` for a valid boolean token `v` sets the
inverter link to the parsed value and leaves the charger link state and
the charger pin untouched; `CH v` symmetrically sets the charger and
leaves the inverter state and pin untouched. -/
theorem claim_C5 (s : Sys) (tok : String) (b : Bool)
    (hsp : ∀ c ∈ tok.data, isSpaceChar c = false)
    (hpb : parseBool tok = some b) :
    ((processLine ("ON " ++ tok) s).inverterEnabled = b ∧
      (processLine ("ON " ++ tok) s).chargerEnabled = s.chargerEnabled ∧
      (processLine ("ON " ++ tok) s).pinCh = s.pinCh) ∧
    ((processLine ("CH " ++ tok) s).chargerEnabled = b ∧
      (processLine ("CH " ++ tok) s).inverterEnabled = s.inverterEnabled ∧
      (processLine ("CH " ++ tok) s).pinOn = s.pinOn) := by
  have ht1 : tok.data ≠ [] := tok_data_ne_nil hpb
  constructor
  · have hdata : ("ON " ++ tok).data = ("ON" : String).data ++ ' ' :: tok.data := by
      cases tok with
      | mk d => rfl
    have e1 := processLine_cmd_tok ("ON " ++ tok) "ON" tok s hdata (by decide)
      (by decide) ht1 hsp
    have hlow : lowerStr "ON" = "on" := by decide
    rw [hlow] at e1
    rw [e1, dispatch_on, hpb]
    exact ⟨rfl, rfl, rfl⟩
  · have hdata : ("CH " ++ tok).data = ("CH" : String).data ++ ' ' :: tok.data := by
      cases tok with
      | mk d => rfl
    have e1 := processLine_cmd_tok ("CH " ++ tok) "CH" tok s hdata (by decide)
      (by decide) ht1 hsp
    have hlow : lowerStr "CH" = "ch" := by decide
    rw [hlow] at e1
    rw [e1, dispatch_ch, hpb]
    exact ⟨rfl, rfl, rfl⟩

/-- C5 witness: `ON 1` sets the inverter and leaves the charger alone;
`CH 1` sets the charger and leaves the inverter alone. -/
theorem claim_C5_witness :
    ((processLine ("ON " ++ "1") (boot Level.high Level.low)).inverterEnabled = true ∧
      (processLine ("ON " ++ "1") (boot Level.high Level.low)).chargerEnabled =
        (boot Level.high Level.low).chargerEnabled ∧
      (processLine ("ON " ++ "1") (boot Level.high Level.low)).pinCh =
        (boot Level.high Level.low).pinCh) ∧
    ((processLine ("CH " ++ "1") (boot Level.high Level.low)).chargerEnabled = true ∧
      (processLine ("CH " ++ "1") (boot Level.high Level.low)).inverterEnabled =
        (boot Level.high Level.low).inverterEnabled ∧
      (processLine ("CH " ++ "1") (boot Level.high Level.low)).pinOn =
        (boot Level.high Level.low).pinOn) :=
  claim_C5 (boot Level.high Level.low) "1" true (by decide) (by decide)

/-- C6: processing `ALL v` for a valid boolean token `v` sets both links
to the parsed value through two relay-driver writes (ON pin first, then
CH pin), replies `OK` and then the snapshot line; an invalid argument
is answered `ERR bad ALL value` with the state untouched. -/
theorem claim_C6 (s : Sys) (tok : String) (htne : tok ≠ "")
    (hsp : ∀ c ∈ tok.data, isSpaceChar c = false) :
    (∀ b : Bool, parseBool tok = some b →
      processLine ("ALL " ++ tok) s =
        { inverterEnabled := b, chargerEnabled := b,
          pinOn := if b then Level.high else Level.low,
          pinCh := if b then Level.high else Level.low,
          writes := s.writes ++
            [(RELAY_ON_PIN, if b then Level.high else Level.low),
              (RELAY_CH_PIN, if b then Level.high else Level.low)],
          out := s.out ++ "OK\n" ++ "STATE ON=" ++ digitStr b ++ " CH=" ++
            digitStr b ++ "\n" }) ∧
    (parseBool tok = none →
      processLine ("ALL " ++ tok) s =
        { s with out := s.out ++ "ERR bad ALL value\n" }) := by
  have ht1 : tok.data ≠ [] := data_ne_nil_of_ne_empty htne
  have hdata : ("ALL " ++ tok).data = ("ALL" : String).data ++ ' ' :: tok.data := by
    cases tok with
    | mk d => rfl
  have e1 := processLine_cmd_tok ("ALL " ++ tok) "ALL" tok s hdata (by decide)
    (by decide) ht1 hsp
  have hlow : lowerStr "ALL" = "all" := by decide
  rw [hlow] at e1
  constructor
  · intro b hpb
    rw [e1, dispatch_all, hpb]
    cases s with
    | mk i c p q w o =>
      cases b <;>
        simp [publishState, serialPrint, serialPrintln, setInverter, setCharger,
          applyRelay, applyRelayWith, digitalWrite, digitStr,
          RELAY_ON_PIN, RELAY_CH_PIN, RELAY_ACTIVE_LOW, String.append_assoc]
  · intro hpb
    rw [e1, dispatch_all, hpb]
    simp [serialPrintln, String.append_assoc]

/-- C6 witness: `ALL 0` disables both links with two writes and replies
`OK` plus the snapshot; `ALL banana` is rejected and changes nothing. -/
theorem claim_C6_witness :
    (processLine ("ALL " ++ "0") (boot Level.high Level.low) =
      { inverterEnabled := false, chargerEnabled := false,
        pinOn := Level.low, pinCh := Level.low,
        writes := (boot Level.high Level.low).writes ++
          [(RELAY_ON_PIN, Level.low), (RELAY_CH_PIN, Level.low)],
        out := (boot Level.high Level.low).out ++ "OK\n" ++ "STATE ON=" ++
          digitStr false ++ " CH=" ++ digitStr false ++ "\n" }) ∧
    (processLine ("ALL " ++ "banana") (boot Level.high Level.low) =
      { boot Level.high Level.low with
        out := (boot Level.high Level.low).out ++ "ERR bad ALL value\n" }) := by
  constructor
  · have h := (claim_C6 (boot Level.high Level.low) "0" (by decide) (by decide)).1
      false (by decide)
    simpa using h
  · exact (claim_C6 (boot Level.high Level.low) "banana" (by decide) (by decide)).2
      (by decide)

end RelayControl
